import Mathlib

/-!
Verification of the Schedula appointment-scheduling core (`src/main.py`).

The embedding models the database as an in-memory store of lists of rows.
SQLAlchemy `.first()` becomes `List.find?`, row insertion becomes list
append, and the in-place mutation of an ORM row found by `.first()`
becomes replacement of the first matching list element (`updateFirst`).
`uuid.uuid4()` identifiers for patients and appointments are modelled by
per-table counters, capturing freshness of generated ids; doctor ids are
caller-supplied strings, as in the source.  Calendar dates and times of
day are opaque values compared for equality only, so they are modelled as
strings.  Each route either raises `HTTPException(status_code, detail)`
before any write, or commits; this is modelled by `Except ApiError`.
-/

namespace Schedula

/-- A row of the `patients` table (`PatientDB`). -/
structure Patient where
  id : Nat
  name : String
  dob : String
  contact : String
deriving DecidableEq, Repr

/-- One weekly availability window of a doctor (`TimingSlot`). -/
structure TimingSlot where
  day_of_week : String
  start_time : String
  end_time : String
deriving DecidableEq, Repr

/-- A row of the `doctors` table (`DoctorDB`). -/
structure Doctor where
  id : String
  name : String
  department : String
  experience : Nat
  success_rate : Float
  qualification : String
  room : String
  timings : List TimingSlot
deriving Repr

/-- A row of the `appointments` table (`AppointmentDB`).  `ward` is a
column never populated by the booking route, hence optional. -/
structure Appointment where
  id : Nat
  patient_id : Nat
  doctor_id : String
  date : String
  time : String
  ward : Option String
  status : String
  notes : String
deriving DecidableEq, Repr

/-- The database state: the three tables plus the id-generation state
standing in for `uuid.uuid4()` freshness. -/
structure Store where
  patients : List Patient
  doctors : List Doctor
  appointments : List Appointment
  nextPatientId : Nat
  nextApptId : Nat

/-- `HTTPException(status_code=..., detail=...)`. -/
structure ApiError where
  status_code : Nat
  detail : String
deriving DecidableEq, Repr

/-- The 400 error raised by both `book_appointment` and
`reschedule_appointment` when the target slot is occupied. -/
def slotConflictErr : ApiError := ⟨400, "Time slot already booked"⟩

/-- Request body of `POST /patients/register` (pydantic `Patient` with
the server-assigned `id` omitted). -/
structure PatientReq where
  name : String
  dob : String
  contact : String
deriving DecidableEq, Repr

/-- Request body of `POST /appointments/book` (pydantic `Appointment`
with the server-assigned `id` omitted; `status` defaults to
`"scheduled"` and `notes` to `""` exactly as in the pydantic model). -/
structure AppointmentReq where
  patient_name : String
  patient_dob : String
  patient_contact : Option String
  doctor_name : String
  date : String
  time : String
  status : String := "scheduled"
  notes : String := ""
deriving DecidableEq, Repr

/-- `GET /patients/search`: find a patient by (name, dob) identity. -/
def search_patient (s : Store) (name dob : String) : Except ApiError Patient :=
  match s.patients.find? (fun p => p.name == name && p.dob == dob) with
  | some p => .ok p
  | none => .error ⟨404, "Patient not found"⟩

/-- `POST /patients/register`: reject a duplicate (name, dob) identity,
otherwise insert a patient with a fresh id. -/
def register_patient (s : Store) (r : PatientReq) : Except ApiError (Store × Nat) :=
  match s.patients.find? (fun p => p.name == r.name && p.dob == r.dob) with
  | some _ => .error ⟨400, "Patient already exists"⟩
  | none =>
    let pid := s.nextPatientId
    .ok ({ s with
            patients := s.patients ++ [{ id := pid, name := r.name, dob := r.dob,
                                         contact := r.contact }],
            nextPatientId := pid + 1 }, pid)

/-- `GET /doctors`: list all doctors. -/
def list_doctors (s : Store) : List Doctor :=
  s.doctors

/-- `POST /doctors/add`: reject a duplicate doctor id, otherwise insert. -/
def add_doctor (s : Store) (d : Doctor) : Except ApiError Store :=
  match s.doctors.find? (fun x => x.id == d.id) with
  | some _ => .error ⟨400, "Doctor with ID '" ++ d.id ++ "' already exists."⟩
  | none => .ok { s with doctors := s.doctors ++ [d] }

/-- `DELETE /doctors/remove/{doctor_id}`: delete the row found by id. -/
def remove_doctor (s : Store) (doctor_id : String) : Except ApiError Store :=
  match s.doctors.find? (fun d => d.id == doctor_id) with
  | none => .error ⟨404, "Doctor with ID '" ++ doctor_id ++ "' not found."⟩
  | some _ => .ok { s with doctors := s.doctors.eraseP (fun d => d.id == doctor_id) }

/-- `POST /appointments/book`: resolve the patient by (name, dob),
resolve the doctor by name, check the slot for a non-cancelled
appointment, then insert a new appointment carrying the payload's
status and notes. -/
def book_appointment (s : Store) (r : AppointmentReq) : Except ApiError (Store × Nat) :=
  match s.patients.find? (fun p => p.name == r.patient_name && p.dob == r.patient_dob) with
  | none => .error ⟨404, "Patient not found with provided name and DOB."⟩
  | some patient =>
    match s.doctors.find? (fun d => d.name == r.doctor_name) with
    | none => .error ⟨404, "Doctor not found with provided name."⟩
    | some doctor =>
      match s.appointments.find? (fun a =>
          a.doctor_id == doctor.id && a.date == r.date && a.time == r.time &&
          a.status != "cancelled") with
      | some _ => .error slotConflictErr
      | none =>
        let newId := s.nextApptId
        .ok ({ s with
                appointments := s.appointments ++
                  [{ id := newId, patient_id := patient.id, doctor_id := doctor.id,
                     date := r.date, time := r.time, ward := none,
                     status := r.status, notes := r.notes }],
                nextApptId := newId + 1 }, newId)

/-- Mutation of the ORM row returned by `.first()`: replace the first
appointment whose id matches. -/
def updateFirst : List Appointment → Nat → (Appointment → Appointment) → List Appointment
  | [], _, _ => []
  | a :: rest, i, f => if a.id == i then f a :: rest else a :: updateFirst rest i f

/-- `PUT /appointments/reschedule/{appointment_id}`: find the
appointment, check the new slot for a different non-cancelled
appointment of the same doctor, then mutate date and time in place. -/
def reschedule_appointment (s : Store) (appointment_id : Nat) (new_date new_time : String) :
    Except ApiError Store :=
  match s.appointments.find? (fun a => a.id == appointment_id) with
  | none => .error ⟨404, "Appointment not found"⟩
  | some appt =>
    match s.appointments.find? (fun a =>
        a.doctor_id == appt.doctor_id && a.date == new_date && a.time == new_time &&
        a.id != appointment_id && a.status != "cancelled") with
    | some _ => .error slotConflictErr
    | none =>
      .ok { s with
              appointments := updateFirst s.appointments appointment_id
                (fun a => { a with date := new_date, time := new_time }) }

/-- `DELETE /appointments/cancel/{appointment_id}`: find the
appointment and overwrite its status with `"cancelled"`. -/
def cancel_appointment (s : Store) (appointment_id : Nat) : Except ApiError Store :=
  match s.appointments.find? (fun a => a.id == appointment_id) with
  | some _ =>
    .ok { s with
            appointments := updateFirst s.appointments appointment_id
              (fun a => { a with status := "cancelled" }) }
  | none => .error ⟨404, "Appointment not found"⟩

/-- `GET /appointments`: all appointments of the patient resolved by
(name, dob), every status included. -/
def get_appointments (s : Store) (patient_name patient_dob : String) :
    Except ApiError (List Appointment) :=
  match s.patients.find? (fun p => p.name == patient_name && p.dob == patient_dob) with
  | none => .error ⟨404, "Patient not found with provided name and DOB."⟩
  | some p => .ok (s.appointments.filter (fun a => a.patient_id == p.id))

/-- `GET /appointments/doctor`: non-cancelled appointments of the
doctor resolved by name, on the given date. -/
def get_doctor_appointments (s : Store) (doctor_name query_date : String) :
    Except ApiError (List Appointment) :=
  match s.doctors.find? (fun d => d.name == doctor_name) with
  | none => .error ⟨404, "Doctor not found with provided name."⟩
  | some d =>
    .ok (s.appointments.filter (fun a =>
      a.doctor_id == d.id && a.date == query_date && a.status != "cancelled"))

/-- One API call, with its request data. -/
inductive Op where
  | register (r : PatientReq)
  | search (name dob : String)
  | addDoctor (d : Doctor)
  | removeDoctor (i : String)
  | listDocs
  | book (r : AppointmentReq)
  | reschedule (i : Nat) (new_date new_time : String)
  | cancel (i : Nat)
  | listForPatient (name dob : String)
  | listForDoctor (name query_date : String)

/-- Effect of one API call on the store.  A route that raises leaves the
store unchanged (every raise in the source happens before any write);
the query routes perform no write at all. -/
def applyOp (s : Store) : Op → Store
  | .register r =>
    match register_patient s r with
    | .ok x => x.1
    | .error _ => s
  | .search _ _ => s
  | .addDoctor d =>
    match add_doctor s d with
    | .ok s' => s'
    | .error _ => s
  | .removeDoctor i =>
    match remove_doctor s i with
    | .ok s' => s'
    | .error _ => s
  | .listDocs => s
  | .book r =>
    match book_appointment s r with
    | .ok x => x.1
    | .error _ => s
  | .reschedule i nd nt =>
    match reschedule_appointment s i nd nt with
    | .ok s' => s'
    | .error _ => s
  | .cancel i =>
    match cancel_appointment s i with
    | .ok s' => s'
    | .error _ => s
  | .listForPatient _ _ => s
  | .listForDoctor _ _ => s

/-- Sequential execution of a list of API calls. -/
def runOps (s : Store) : List Op → Store
  | [] => s
  | op :: ops => runOps (applyOp s op) ops

/-- The store created by `Base.metadata.create_all`: empty tables. -/
def initStore : Store :=
  { patients := [], doctors := [], appointments := [],
    nextPatientId := 0, nextApptId := 0 }

/-- States reachable from the empty store by sequential API calls. -/
def Reachable (s : Store) : Prop :=
  ∃ ops : List Op, runOps initStore ops = s

/-- Two appointment rows do not double-book: they are not both
non-cancelled at the same (doctor, date, time) slot. -/
def NoDoubleBook (a b : Appointment) : Prop :=
  ¬(a.status ≠ "cancelled" ∧ b.status ≠ "cancelled" ∧
    a.doctor_id = b.doctor_id ∧ a.date = b.date ∧ a.time = b.time)

instance (a b : Appointment) : Decidable (NoDoubleBook a b) := by
  unfold NoDoubleBook; infer_instance

/-- The central invariant: no two rows of the appointment table
double-book a slot. -/
def SlotUnique (s : Store) : Prop :=
  s.appointments.Pairwise NoDoubleBook

instance (s : Store) : Decidable (SlotUnique s) := by
  unfold SlotUnique; infer_instance

/-- Appointment ids are pairwise distinct (the primary-key property,
maintained here by the freshness counter). -/
def NoDupIds (s : Store) : Prop :=
  s.appointments.Pairwise (fun a b => a.id ≠ b.id)

instance (s : Store) : Decidable (NoDupIds s) := by
  unfold NoDupIds; infer_instance

/-- No two patient rows share the (name, dob) identity key. -/
def PatientUnique (s : Store) : Prop :=
  s.patients.Pairwise (fun p q => ¬(p.name = q.name ∧ p.dob = q.dob))

instance (s : Store) : Decidable (PatientUnique s) := by
  unfold PatientUnique; infer_instance

/-- The inductive invariant carried through every operation. -/
def WF (s : Store) : Prop :=
  (∀ a ∈ s.appointments, a.id < s.nextApptId) ∧
  NoDupIds s ∧ SlotUnique s ∧
  (∀ p ∈ s.patients, p.id < s.nextPatientId) ∧
  PatientUnique s

/-! ### List helper lemmas -/

theorem forall_not_of_find?_none {α : Type} {p : α → Bool} {l : List α}
    (h : l.find? p = none) : ∀ x ∈ l, p x = false := by
  intro x hx
  have hnx := List.find?_eq_none.mp h x hx
  simpa using hnx

theorem find?_decomp {α : Type} {p : α → Bool} {l : List α} {a : α}
    (h : l.find? p = some a) :
    ∃ l1 l2, l = l1 ++ a :: l2 ∧ ∀ b ∈ l1, p b = false := by
  induction l with
  | nil => simp at h
  | cons x xs ih =>
    by_cases hx : p x = true
    · rw [List.find?_cons_of_pos _ hx] at h
      obtain rfl : x = a := by simpa using h
      exact ⟨[], xs, by simp, by simp⟩
    · rw [List.find?_cons_of_neg _ hx] at h
      obtain ⟨l1, l2, rfl, hl1⟩ := ih h
      refine ⟨x :: l1, l2, rfl, ?_⟩
      intro b hb
      rcases List.mem_cons.mp hb with rfl | hb
      · simpa using hx
      · exact hl1 b hb

theorem pairwise_mem_distinct {α : Type} {R : α → α → Prop}
    (hsym : ∀ x y, R x y → R y x) {l : List α} (h : l.Pairwise R)
    {a b : α} (ha : a ∈ l) (hb : b ∈ l) (hne : a ≠ b) : R a b :=
  List.Pairwise.forall (fun {x y} hxy => hsym x y hxy) h ha hb hne

theorem pairwise_filter_length_le_one {α : Type} {R : α → α → Prop} {p : α → Bool}
    {l : List α} (hl : l.Pairwise R)
    (h : ∀ a b, p a = true → p b = true → R a b → False) :
    (l.filter p).length ≤ 1 := by
  have hpf : (l.filter p).Pairwise R := hl.sublist (List.filter_sublist l)
  cases hfl : l.filter p with
  | nil => simp
  | cons x t =>
    cases t with
    | nil => simp
    | cons y t2 =>
      exfalso
      rw [hfl] at hpf
      have hR : R x y := (List.pairwise_cons.mp hpf).1 y (by simp)
      have hx : p x = true := List.of_mem_filter (l := l) (by rw [hfl]; simp)
      have hy : p y = true := List.of_mem_filter (l := l) (by rw [hfl]; simp)
      exact h x y hx hy hR

/-! ### `updateFirst` lemmas -/

theorem updateFirst_append {l1 : List Appointment} {a : Appointment}
    {l2 : List Appointment} {i : Nat} {f : Appointment → Appointment}
    (h1 : ∀ b ∈ l1, (b.id == i) = false) (ha : a.id = i) :
    updateFirst (l1 ++ a :: l2) i f = l1 ++ f a :: l2 := by
  induction l1 with
  | nil => simp [updateFirst, ha]
  | cons x xs ih =>
    have hx : (x.id == i) = false := h1 x (by simp)
    have ih2 := ih (fun b hb => h1 b (by simp [hb]))
    simp [updateFirst, hx, ih2]

theorem mem_updateFirst {l : List Appointment} {i : Nat}
    {f : Appointment → Appointment} {x : Appointment}
    (hx : x ∈ updateFirst l i f) : x ∈ l ∨ ∃ y ∈ l, x = f y := by
  induction l with
  | nil => simp [updateFirst] at hx
  | cons a rest ih =>
    by_cases ha : (a.id == i) = true
    · simp only [updateFirst, ha, if_true] at hx
      rcases List.mem_cons.mp hx with rfl | hx
      · exact Or.inr ⟨a, by simp, rfl⟩
      · exact Or.inl (by simp [hx])
    · simp only [Bool.not_eq_true] at ha
      simp only [updateFirst, ha, Bool.false_eq_true, if_false] at hx
      rcases List.mem_cons.mp hx with rfl | hx
      · exact Or.inl (by simp)
      · rcases ih hx with h | ⟨y, hy, rfl⟩
        · exact Or.inl (by simp [h])
        · exact Or.inr ⟨y, by simp [hy], rfl⟩

/-! ### Inversion lemmas for the successful operations -/

theorem register_ok_inv {s : Store} {r : PatientReq} {s' : Store} {n : Nat}
    (h : register_patient s r = .ok (s', n)) :
    s.patients.find? (fun p => p.name == r.name && p.dob == r.dob) = none ∧
    n = s.nextPatientId ∧
    s' = { s with
            patients := s.patients ++ [{ id := s.nextPatientId, name := r.name,
                                         dob := r.dob, contact := r.contact }],
            nextPatientId := s.nextPatientId + 1 } := by
  unfold register_patient at h
  cases hf : s.patients.find? (fun p => p.name == r.name && p.dob == r.dob) with
  | some p => rw [hf] at h; exact absurd h (by simp)
  | none =>
    rw [hf] at h
    simp only [Except.ok.injEq, Prod.mk.injEq] at h
    exact ⟨rfl, h.2.symm, h.1.symm⟩

theorem book_ok_inv {s : Store} {r : AppointmentReq} {s' : Store} {n : Nat}
    (h : book_appointment s r = .ok (s', n)) :
    ∃ p d,
      s.patients.find? (fun x => x.name == r.patient_name && x.dob == r.patient_dob)
        = some p ∧
      s.doctors.find? (fun x => x.name == r.doctor_name) = some d ∧
      s.appointments.find? (fun a =>
        a.doctor_id == d.id && a.date == r.date && a.time == r.time &&
        a.status != "cancelled") = none ∧
      n = s.nextApptId ∧
      s' = { s with
              appointments := s.appointments ++
                [{ id := s.nextApptId, patient_id := p.id, doctor_id := d.id,
                   date := r.date, time := r.time, ward := none,
                   status := r.status, notes := r.notes }],
              nextApptId := s.nextApptId + 1 } := by
  unfold book_appointment at h
  cases hp : s.patients.find?
      (fun x => x.name == r.patient_name && x.dob == r.patient_dob) with
  | none => rw [hp] at h; exact absurd h (by simp)
  | some p =>
    rw [hp] at h
    simp only [] at h
    cases hd : s.doctors.find? (fun x => x.name == r.doctor_name) with
    | none => rw [hd] at h; exact absurd h (by simp)
    | some d =>
      rw [hd] at h
      simp only [] at h
      cases hc : s.appointments.find? (fun a =>
          a.doctor_id == d.id && a.date == r.date && a.time == r.time &&
          a.status != "cancelled") with
      | some c => rw [hc] at h; exact absurd h (by simp [slotConflictErr])
      | none =>
        rw [hc] at h
        simp only [Except.ok.injEq, Prod.mk.injEq] at h
        exact ⟨p, d, rfl, rfl, hc, h.2.symm, h.1.symm⟩

theorem reschedule_ok_inv {s : Store} {i : Nat} {nd nt : String} {s' : Store}
    (h : reschedule_appointment s i nd nt = .ok s') :
    ∃ a,
      s.appointments.find? (fun x => x.id == i) = some a ∧
      s.appointments.find? (fun x =>
        x.doctor_id == a.doctor_id && x.date == nd && x.time == nt &&
        x.id != i && x.status != "cancelled") = none ∧
      s' = { s with
              appointments := updateFirst s.appointments i
                (fun x => { x with date := nd, time := nt }) } := by
  unfold reschedule_appointment at h
  cases hf : s.appointments.find? (fun x => x.id == i) with
  | none => rw [hf] at h; exact absurd h (by simp)
  | some a =>
    rw [hf] at h
    simp only [] at h
    cases hc : s.appointments.find? (fun x =>
        x.doctor_id == a.doctor_id && x.date == nd && x.time == nt &&
        x.id != i && x.status != "cancelled") with
    | some c => rw [hc] at h; exact absurd h (by simp [slotConflictErr])
    | none =>
      rw [hc] at h
      simp only [Except.ok.injEq] at h
      exact ⟨a, rfl, hc, h.symm⟩

theorem cancel_ok_inv {s : Store} {i : Nat} {s' : Store}
    (h : cancel_appointment s i = .ok s') :
    ∃ a,
      s.appointments.find? (fun x => x.id == i) = some a ∧
      s' = { s with
              appointments := updateFirst s.appointments i
                (fun x => { x with status := "cancelled" }) } := by
  unfold cancel_appointment at h
  cases hf : s.appointments.find? (fun x => x.id == i) with
  | none => rw [hf] at h; exact absurd h (by simp)
  | some a =>
    rw [hf] at h
    simp only [Except.ok.injEq] at h
    exact ⟨a, rfl, h.symm⟩

/-! ### Preservation of the inductive invariant -/

theorem pairwise_middle {α : Type} {R : α → α → Prop} {l1 l2 : List α} {a a' : α}
    (h : (l1 ++ a :: l2).Pairwise R)
    (h1 : ∀ b, R b a → R b a') (h2 : ∀ b, R a b → R a' b) :
    (l1 ++ a' :: l2).Pairwise R := by
  rw [List.pairwise_append] at h ⊢
  obtain ⟨hl1, hmid, hcross⟩ := h
  rw [List.pairwise_cons] at hmid
  obtain ⟨hamid, hl2⟩ := hmid
  refine ⟨hl1, ?_, ?_⟩
  · rw [List.pairwise_cons]
    exact ⟨fun b hb => h2 b (hamid b hb), hl2⟩
  · intro x hx y hy
    rcases List.mem_cons.mp hy with rfl | hy
    · exact h1 x (hcross x hx a (by simp))
    · exact hcross x hx y (by simp [hy])

theorem noDoubleBook_cancelled_right (a b : Appointment) :
    NoDoubleBook b { a with status := "cancelled" } :=
  fun h => h.2.1 rfl

theorem noDoubleBook_cancelled_left (a b : Appointment) :
    NoDoubleBook { a with status := "cancelled" } b :=
  fun h => h.1 rfl

theorem wf_init : WF initStore := by
  simp [WF, initStore, NoDupIds, SlotUnique, PatientUnique]

theorem wf_register {s : Store} {r : PatientReq} {s' : Store} {n : Nat}
    (hwf : WF s) (h : register_patient s r = .ok (s', n)) : WF s' := by
  obtain ⟨hfind, hn, rfl⟩ := register_ok_inv h
  obtain ⟨hb, hd, hu, hpb, hpu⟩ := hwf
  refine ⟨hb, hd, hu, ?_, ?_⟩
  · intro p hp
    rcases List.mem_append.mp hp with hp | hp
    · exact Nat.lt_succ_of_lt (hpb p hp)
    · simp only [List.mem_singleton] at hp
      subst hp
      exact Nat.lt_succ_self _
  · unfold PatientUnique
    refine List.pairwise_append.mpr ⟨hpu, by simp, ?_⟩
    intro p hp q hq
    simp only [List.mem_singleton] at hq
    subst hq
    rintro ⟨he1, he2⟩
    have hne := forall_not_of_find?_none hfind p hp
    simp [he1, he2] at hne

theorem wf_book {s : Store} {r : AppointmentReq} {s' : Store} {n : Nat}
    (hwf : WF s) (h : book_appointment s r = .ok (s', n)) : WF s' := by
  obtain ⟨p, d, hp, hd, hc, hn, rfl⟩ := book_ok_inv h
  obtain ⟨hb, hdup, hu, hpb, hpu⟩ := hwf
  have hcf := forall_not_of_find?_none hc
  refine ⟨?_, ?_, ?_, hpb, hpu⟩
  · intro x hx
    rcases List.mem_append.mp hx with hx | hx
    · exact Nat.lt_succ_of_lt (hb x hx)
    · simp only [List.mem_singleton] at hx
      subst hx
      exact Nat.lt_succ_self _
  · unfold NoDupIds
    refine List.pairwise_append.mpr ⟨hdup, by simp, ?_⟩
    intro x hx y hy
    simp only [List.mem_singleton] at hy
    subst hy
    have hxlt := hb x hx
    simp only []
    omega
  · unfold SlotUnique
    refine List.pairwise_append.mpr ⟨hu, by simp, ?_⟩
    intro x hx y hy
    simp only [List.mem_singleton] at hy
    subst hy
    rintro ⟨hxa, hya, hdoc, hdate, htime⟩
    simp only [] at hdoc hdate htime
    have hfalse := hcf x hx
    simp [hdoc, hdate, htime, hxa] at hfalse

theorem reschedule_slot_unique {l1 l2 : List Appointment} {a : Appointment} {i : Nat}
    {nd nt : String}
    (hu : (l1 ++ a :: l2).Pairwise NoDoubleBook)
    (hdup : (l1 ++ a :: l2).Pairwise (fun x y => x.id ≠ y.id))
    (hcf : ∀ x ∈ l1 ++ a :: l2,
      (x.doctor_id == a.doctor_id && x.date == nd && x.time == nt &&
        x.id != i && x.status != "cancelled") = false)
    (haid : a.id = i) :
    (l1 ++ { a with date := nd, time := nt } :: l2).Pairwise NoDoubleBook := by
  have hkey : ∀ x ∈ l1 ++ a :: l2, x.id ≠ i →
      ¬(x.status ≠ "cancelled" ∧ x.doctor_id = a.doctor_id ∧ x.date = nd ∧ x.time = nt) := by
    rintro x hx hxid ⟨hst, hdoc, hdate, htime⟩
    have hfalse := hcf x hx
    simp [hdoc, hdate, htime, hst, hxid] at hfalse
  rw [List.pairwise_append] at hu ⊢
  obtain ⟨hu1, humid, hucross⟩ := hu
  rw [List.pairwise_cons] at humid
  obtain ⟨hua, hu2⟩ := humid
  rw [List.pairwise_append] at hdup
  obtain ⟨_, hdmid, hdcross⟩ := hdup
  rw [List.pairwise_cons] at hdmid
  obtain ⟨hda, _⟩ := hdmid
  refine ⟨hu1, ?_, ?_⟩
  · rw [List.pairwise_cons]
    refine ⟨?_, hu2⟩
    intro b hb
    have hbid : b.id ≠ i := fun hbi => (hda b hb) (by rw [haid, hbi])
    have hkb := hkey b (by simp [hb]) hbid
    rintro ⟨hsta, hstb, hdoc, hdate, htime⟩
    exact hkb ⟨hstb, hdoc.symm, hdate.symm, htime.symm⟩
  · intro x hx y hy
    rcases List.mem_cons.mp hy with rfl | hy
    · have hxid : x.id ≠ i := fun hxi => (hdcross x hx a (by simp)) (by rw [hxi, haid])
      have hkx := hkey x (by simp [hx]) hxid
      rintro ⟨hstx, hsta, hdoc, hdate, htime⟩
      exact hkx ⟨hstx, hdoc, hdate, htime⟩
    · exact hucross x hx y (by simp [hy])

theorem wf_reschedule {s : Store} {i : Nat} {nd nt : String} {s' : Store}
    (hwf : WF s) (h : reschedule_appointment s i nd nt = .ok s') : WF s' := by
  obtain ⟨a, hf, hc, rfl⟩ := reschedule_ok_inv h
  obtain ⟨hb, hdup, hu, hpb, hpu⟩ := hwf
  have haid : a.id = i := by simpa using List.find?_some hf
  obtain ⟨l1, l2, hsplit, hl1⟩ := find?_decomp hf
  have hupd : updateFirst s.appointments i (fun x => { x with date := nd, time := nt })
      = l1 ++ { a with date := nd, time := nt } :: l2 := by
    rw [hsplit]
    exact updateFirst_append hl1 haid
  have hcf := forall_not_of_find?_none hc
  unfold NoDupIds at hdup
  unfold SlotUnique at hu
  rw [hsplit] at hb hdup hu hcf
  rw [hupd]
  refine ⟨?_, ?_, ?_, hpb, hpu⟩
  · intro x hx
    rcases List.mem_append.mp hx with hx | hx
    · exact hb x (by simp [hx])
    rcases List.mem_cons.mp hx with rfl | hx
    · simpa using hb a (by simp)
    · exact hb x (by simp [hx])
  · exact pairwise_middle hdup (fun b hb => hb) (fun b hb => hb)
  · exact reschedule_slot_unique hu hdup hcf haid

theorem wf_cancel {s : Store} {i : Nat} {s' : Store}
    (hwf : WF s) (h : cancel_appointment s i = .ok s') : WF s' := by
  obtain ⟨a, hf, rfl⟩ := cancel_ok_inv h
  obtain ⟨hb, hdup, hu, hpb, hpu⟩ := hwf
  have haid : a.id = i := by simpa using List.find?_some hf
  obtain ⟨l1, l2, hsplit, hl1⟩ := find?_decomp hf
  have hupd : updateFirst s.appointments i (fun x => { x with status := "cancelled" })
      = l1 ++ { a with status := "cancelled" } :: l2 := by
    rw [hsplit]
    exact updateFirst_append hl1 haid
  unfold NoDupIds at hdup
  unfold SlotUnique at hu
  rw [hsplit] at hb hdup hu
  rw [hupd]
  refine ⟨?_, ?_, ?_, hpb, hpu⟩
  · intro x hx
    rcases List.mem_append.mp hx with hx | hx
    · exact hb x (by simp [hx])
    rcases List.mem_cons.mp hx with rfl | hx
    · simpa using hb a (by simp)
    · exact hb x (by simp [hx])
  · exact pairwise_middle hdup (fun b hb => hb) (fun b hb => hb)
  · exact pairwise_middle hu (fun b _ => noDoubleBook_cancelled_right a b)
      (fun b _ => noDoubleBook_cancelled_left a b)

theorem applyOp_wf {s : Store} (hwf : WF s) (op : Op) : WF (applyOp s op) := by
  cases op with
  | register r =>
    simp only [applyOp]
    cases h : register_patient s r with
    | ok x =>
      obtain ⟨s2, n2⟩ := x
      exact wf_register hwf h
    | error e => exact hwf
  | search name dob => exact hwf
  | addDoctor d =>
    simp only [applyOp]
    cases h : add_doctor s d with
    | ok s2 =>
      unfold add_doctor at h
      cases hf : s.doctors.find? (fun x => x.id == d.id) with
      | some _ => rw [hf] at h; exact absurd h (by simp)
      | none =>
        rw [hf] at h
        simp only [Except.ok.injEq] at h
        subst h
        exact hwf
    | error e => exact hwf
  | removeDoctor i =>
    simp only [applyOp]
    cases h : remove_doctor s i with
    | ok s2 =>
      unfold remove_doctor at h
      cases hf : s.doctors.find? (fun d => d.id == i) with
      | none => rw [hf] at h; exact absurd h (by simp)
      | some _ =>
        rw [hf] at h
        simp only [Except.ok.injEq] at h
        subst h
        exact hwf
    | error e => exact hwf
  | listDocs => exact hwf
  | book r =>
    simp only [applyOp]
    cases h : book_appointment s r with
    | ok x =>
      obtain ⟨s2, n2⟩ := x
      exact wf_book hwf h
    | error e => exact hwf
  | reschedule i nd nt =>
    simp only [applyOp]
    cases h : reschedule_appointment s i nd nt with
    | ok s2 => exact wf_reschedule hwf h
    | error e => exact hwf
  | cancel i =>
    simp only [applyOp]
    cases h : cancel_appointment s i with
    | ok s2 => exact wf_cancel hwf h
    | error e => exact hwf
  | listForPatient name dob => exact hwf
  | listForDoctor name qd => exact hwf

theorem runOps_wf {s : Store} (hwf : WF s) (ops : List Op) : WF (runOps s ops) := by
  induction ops generalizing s with
  | nil => exact hwf
  | cons op ops ih => exact ih (applyOp_wf hwf op)

theorem reachable_wf {s : Store} (h : Reachable s) : WF s := by
  obtain ⟨ops, rfl⟩ := h
  exact runOps_wf wf_init ops

theorem runOps_append (s : Store) (l1 l2 : List Op) :
    runOps s (l1 ++ l2) = runOps (runOps s l1) l2 := by
  induction l1 generalizing s with
  | nil => rfl
  | cons op ops ih => exact ih (applyOp s op)

theorem reachable_applyOp {s : Store} (h : Reachable s) (op : Op) :
    Reachable (applyOp s op) := by
  obtain ⟨ops, rfl⟩ := h
  exact ⟨ops ++ [op], runOps_append initStore ops [op]⟩

theorem slotUnique_filter_le_one {s : Store} (hu : SlotUnique s) (did d t : String) :
    (s.appointments.filter (fun a =>
      a.doctor_id == did && a.date == d && a.time == t &&
      a.status != "cancelled")).length ≤ 1 := by
  apply pairwise_filter_length_le_one hu
  intro a b ha hb hR
  simp only [Bool.and_eq_true, beq_iff_eq, bne_iff_ne] at ha hb
  exact hR ⟨ha.2, hb.2, ha.1.1.1.trans hb.1.1.1.symm,
    ha.1.1.2.trans hb.1.1.2.symm, ha.1.2.trans hb.1.2.symm⟩

/-! ### Concrete scenario used by the witnesses -/

def demoDoctor : Doctor :=
  { id := "doc1", name := "Doc One", department := "Cardiology", experience := 10,
    success_rate := 95.0, qualification := "MD", room := "R1", timings := [] }

def demoPatientReq : PatientReq :=
  { name := "Asha Rao", dob := "1990-04-02", contact := "555-0100" }

def demoBookReq : AppointmentReq :=
  { patient_name := "Asha Rao", patient_dob := "1990-04-02",
    patient_contact := some "555-0100", doctor_name := "Doc One",
    date := "2025-03-10", time := "09:00" }

def demoOps : List Op := [.addDoctor demoDoctor, .register demoPatientReq, .book demoBookReq]

/-- The store after adding a doctor, registering a patient and booking
one appointment at ("doc1", 2025-03-10, 09:00). -/
def demoStore : Store := runOps initStore demoOps

def apptScheduled : Appointment :=
  { id := 0, patient_id := 0, doctor_id := "doc1", date := "2025-03-10",
    time := "09:00", ward := none, status := "scheduled", notes := "" }

def apptCancelled : Appointment :=
  { id := 0, patient_id := 0, doctor_id := "doc1", date := "2025-03-10",
    time := "09:00", ward := none, status := "cancelled", notes := "" }

def demoOpsCancel : List Op := demoOps ++ [.cancel 0]

/-- `demoStore` after cancelling its single appointment. -/
def demoStoreCancelled : Store := runOps initStore demoOpsCancel

/-! ### The claims -/

/-- C1: in every store state reachable by sequential calls of the
operations of this core, at most one appointment with status other than
`"cancelled"` exists for any (provider id, date, time) tuple, and every
single further operation preserves this. -/
theorem slot_uniqueness_invariant (s : Store) (h : Reachable s) (did d t : String) :
    (s.appointments.filter (fun a =>
      a.doctor_id == did && a.date == d && a.time == t &&
      a.status != "cancelled")).length ≤ 1 ∧
    ∀ op : Op, ((applyOp s op).appointments.filter (fun a =>
      a.doctor_id == did && a.date == d && a.time == t &&
      a.status != "cancelled")).length ≤ 1 := by
  constructor
  · exact slotUnique_filter_le_one (reachable_wf h).2.2.1 did d t
  · intro op
    exact slotUnique_filter_le_one (reachable_wf (reachable_applyOp h op)).2.2.1 did d t

theorem slot_uniqueness_invariant_witness :
    Reachable demoStore ∧
    (demoStore.appointments.filter (fun a =>
      a.doctor_id == "doc1" && a.date == "2025-03-10" && a.time == "09:00" &&
      a.status != "cancelled")).length ≤ 1 :=
  ⟨⟨demoOps, rfl⟩,
    (slot_uniqueness_invariant demoStore ⟨demoOps, rfl⟩ "doc1" "2025-03-10" "09:00").1⟩

/-- C7: Register Patient fails with the Conflict error exactly when a
patient with the same (name, dob) already exists, succeeds inserting
exactly one new patient otherwise, and in every reachable state at most
one patient row exists per (name, dob) pair. -/
theorem patient_identity_uniqueness (s : Store) (r : PatientReq) (h : Reachable s) :
    (∀ name dob : String,
      (s.patients.filter (fun p => p.name == name && p.dob == dob)).length ≤ 1) ∧
    ((∃ p ∈ s.patients, p.name = r.name ∧ p.dob = r.dob) →
      register_patient s r = .error ⟨400, "Patient already exists"⟩) ∧
    ((∀ p ∈ s.patients, ¬(p.name = r.name ∧ p.dob = r.dob)) →
      ∃ q, register_patient s r =
          .ok ({ s with
                  patients := s.patients ++ [q],
                  nextPatientId := s.nextPatientId + 1 }, q.id) ∧
        q.name = r.name ∧ q.dob = r.dob) := by
  refine ⟨?_, ?_, ?_⟩
  · intro name dob
    apply pairwise_filter_length_le_one (reachable_wf h).2.2.2.2
    intro p q hp hq hR
    simp only [Bool.and_eq_true, beq_iff_eq] at hp hq
    exact hR ⟨hp.1.trans hq.1.symm, hp.2.trans hq.2.symm⟩
  · rintro ⟨p, hp, hn, hd⟩
    unfold register_patient
    cases hf : s.patients.find? (fun q => q.name == r.name && q.dob == r.dob) with
    | some q => rfl
    | none =>
      exfalso
      have hnp := forall_not_of_find?_none hf p hp
      simp [hn, hd] at hnp
  · intro hall
    have hf : s.patients.find? (fun q => q.name == r.name && q.dob == r.dob) = none := by
      rw [List.find?_eq_none]
      intro q hq hpred
      simp only [Bool.and_eq_true, beq_iff_eq] at hpred
      exact hall q hq hpred
    unfold register_patient
    rw [hf]
    exact ⟨{ id := s.nextPatientId, name := r.name, dob := r.dob, contact := r.contact },
      rfl, rfl, rfl⟩

theorem patient_identity_uniqueness_witness :
    Reachable demoStore ∧
    (demoStore.patients.filter (fun p =>
      p.name == "Asha Rao" && p.dob == "1990-04-02")).length ≤ 1 :=
  ⟨⟨demoOps, rfl⟩,
    (patient_identity_uniqueness demoStore demoPatientReq ⟨demoOps, rfl⟩).1
      "Asha Rao" "1990-04-02"⟩

/-- A store holding the registered patient Asha and the doctor "Doc One",
with no appointments yet. -/
def storeC2 : Store :=
  { patients := [{ id := 0, name := "Asha Rao", dob := "1990-04-02", contact := "555-0100" }],
    doctors := [demoDoctor], appointments := [],
    nextPatientId := 1, nextApptId := 0 }

/-- A booking request whose payload carries status `"completed"`. -/
def reqC2 : AppointmentReq :=
  { patient_name := "Asha Rao", patient_dob := "1990-04-02",
    patient_contact := some "555-0100", doctor_name := "Doc One",
    date := "2025-03-10", time := "09:00", status := "completed", notes := "" }

/-- C2 counterexample: a successful Book call whose created appointment
is persisted with the payload's status `"completed"`, not `"scheduled"`. -/
theorem book_persists_payload_status :
    (book_appointment storeC2 reqC2).toOption.map
      (fun x => x.1.appointments.map Appointment.status) = some ["completed"] ∧
    ("completed" : String) ≠ "scheduled" :=
  ⟨rfl, by decide⟩

/-- C2 amended: for every successful Book call, the appointment created
and persisted carries exactly the status supplied in the request payload
(which defaults to `"scheduled"` when the payload omits it). -/
theorem book_status_from_payload (s : Store) (r : AppointmentReq) (s' : Store) (n : Nat)
    (h : book_appointment s r = .ok (s', n)) :
    ∃ a, s'.appointments = s.appointments ++ [a] ∧ a.id = n ∧ a.status = r.status := by
  obtain ⟨p, d, hp, hd, hc, hn, rfl⟩ := book_ok_inv h
  exact ⟨_, rfl, by rw [hn], rfl⟩

def storeC2After : Store :=
  { storeC2 with
      appointments := [{ id := 0, patient_id := 0, doctor_id := "doc1",
                         date := "2025-03-10", time := "09:00", ward := none,
                         status := "completed", notes := "" }],
      nextApptId := 1 }

theorem book_status_from_payload_witness :
    book_appointment storeC2 reqC2 = .ok (storeC2After, 0) ∧
    ∃ a, storeC2After.appointments = storeC2.appointments ++ [a] ∧
      a.id = 0 ∧ a.status = reqC2.status :=
  ⟨rfl, book_status_from_payload storeC2 reqC2 storeC2After 0 rfl⟩

/-- C6: a Book request whose doctor name resolves to no doctor fails
with a 404 NotFound error, never with the SlotConflict error, whatever
the rest of the store holds: provider resolution is decided before any
conflict check. -/
theorem book_unknown_doctor_notfound (s : Store) (r : AppointmentReq)
    (hdoc : s.doctors.find? (fun d => d.name == r.doctor_name) = none) :
    ∃ msg, book_appointment s r = .error ⟨404, msg⟩ ∧
      book_appointment s r ≠ .error slotConflictErr := by
  unfold book_appointment
  cases hp : s.patients.find? (fun p =>
      p.name == r.patient_name && p.dob == r.patient_dob) with
  | none =>
    refine ⟨"Patient not found with provided name and DOB.", rfl, ?_⟩
    intro hcontra
    simp [slotConflictErr] at hcontra
  | some p =>
    simp only []
    rw [hdoc]
    refine ⟨"Doctor not found with provided name.", rfl, ?_⟩
    intro hcontra
    simp [slotConflictErr] at hcontra

/-- A booking request against the occupied demo slot but an unknown
doctor name. -/
def reqC6 : AppointmentReq :=
  { patient_name := "Asha Rao", patient_dob := "1990-04-02",
    patient_contact := some "555-0100", doctor_name := "Doc Nobody",
    date := "2025-03-10", time := "09:00" }

theorem book_unknown_doctor_notfound_witness :
    demoStore.doctors.find? (fun d => d.name == reqC6.doctor_name) = none ∧
    ∃ msg, book_appointment demoStore reqC6 = .error ⟨404, msg⟩ ∧
      book_appointment demoStore reqC6 ≠ .error slotConflictErr :=
  ⟨rfl, book_unknown_doctor_notfound demoStore reqC6 rfl⟩

theorem noDoubleBook_symm {x y : Appointment} (h : NoDoubleBook x y) : NoDoubleBook y x :=
  fun hcon => h ⟨hcon.2.1, hcon.1, hcon.2.2.1.symm, hcon.2.2.2.1.symm, hcon.2.2.2.2.symm⟩

/-- A second appointment, active at the same slot the cancelled
`apptCancelled` still records. -/
def apptOther : Appointment :=
  { id := 1, patient_id := 1, doctor_id := "doc1", date := "2025-03-10",
    time := "09:00", ward := none, status := "scheduled", notes := "" }

/-- A store satisfying the slot uniqueness invariant in which a
cancelled appointment and an active appointment share a slot. -/
def storeC4 : Store :=
  { patients := [], doctors := [], appointments := [apptCancelled, apptOther],
    nextPatientId := 0, nextApptId := 2 }

/-- C4 counterexample: in a store satisfying the slot uniqueness
invariant, rescheduling the existing (cancelled) appointment to its own
current (date, time) does fail with SlotConflict, because another
active appointment now occupies that slot. -/
theorem reschedule_self_slotconflict :
    SlotUnique storeC4 ∧ apptCancelled ∈ storeC4.appointments ∧
    reschedule_appointment storeC4 apptCancelled.id apptCancelled.date apptCancelled.time
      = .error slotConflictErr :=
  ⟨by decide, by decide, rfl⟩

/-- C4 amended: for every store state satisfying the slot uniqueness
invariant and every existing non-cancelled appointment A (retrieved for
its own id), rescheduling A to its own current (date, time) does not
fail with SlotConflict. -/
theorem reschedule_self_exclusion (s : Store) (a : Appointment)
    (hfind : s.appointments.find? (fun x => x.id == a.id) = some a)
    (hinv : SlotUnique s) (hact : a.status ≠ "cancelled") :
    reschedule_appointment s a.id a.date a.time ≠ .error slotConflictErr := by
  unfold reschedule_appointment
  rw [hfind]
  simp only []
  cases hc : s.appointments.find? (fun x =>
      x.doctor_id == a.doctor_id && x.date == a.date && x.time == a.time &&
      x.id != a.id && x.status != "cancelled") with
  | none => simp
  | some b =>
    exfalso
    have hbmem := List.mem_of_find?_eq_some hc
    have hbp := List.find?_some hc
    simp only [Bool.and_eq_true, beq_iff_eq, bne_iff_ne] at hbp
    have hamem := List.mem_of_find?_eq_some hfind
    have hne : b ≠ a := fun e => hbp.1.2 (by rw [e])
    have hR : NoDoubleBook b a :=
      pairwise_mem_distinct (fun x y hxy => noDoubleBook_symm hxy) hinv hbmem hamem hne
    exact hR ⟨hbp.2, hact, hbp.1.1.1.1, hbp.1.1.1.2, hbp.1.1.2⟩

theorem reschedule_self_exclusion_witness :
    demoStore.appointments.find? (fun x => x.id == apptScheduled.id) = some apptScheduled ∧
    SlotUnique demoStore ∧ apptScheduled.status ≠ "cancelled" ∧
    reschedule_appointment demoStore apptScheduled.id apptScheduled.date apptScheduled.time
      ≠ .error slotConflictErr :=
  ⟨by decide, by decide, by decide,
    reschedule_self_exclusion demoStore apptScheduled (by decide) (by decide) (by decide)⟩

/-- Successful booking, characterised forward: if the patient and
doctor resolve and the conflict query finds nothing, Book inserts the
new appointment and returns its fresh id. -/
theorem book_succeeds {s : Store} {r : AppointmentReq} {p : Patient} {d : Doctor}
    (hp : s.patients.find? (fun x => x.name == r.patient_name && x.dob == r.patient_dob)
      = some p)
    (hd : s.doctors.find? (fun x => x.name == r.doctor_name) = some d)
    (hc : s.appointments.find? (fun a =>
      a.doctor_id == d.id && a.date == r.date && a.time == r.time &&
      a.status != "cancelled") = none) :
    book_appointment s r =
      .ok ({ s with
              appointments := s.appointments ++
                [{ id := s.nextApptId, patient_id := p.id, doctor_id := d.id,
                   date := r.date, time := r.time, ward := none,
                   status := r.status, notes := r.notes }],
              nextApptId := s.nextApptId + 1 }, s.nextApptId) := by
  unfold book_appointment
  rw [hp]
  simp only []
  rw [hd]
  simp only []
  rw [hc]

/-- C5: if appointment A (retrieved for its id, in a store with
distinct appointment ids) is the only non-cancelled appointment at its
(provider, date, time) slot, then after a successful Cancel(A.id), a
Book request for the same provider, date and time with a resolvable
patient and provider succeeds. -/
theorem cancel_frees_slot (s : Store) (a : Appointment) (r : AppointmentReq)
    (pt : Patient) (d : Doctor)
    (hfind : s.appointments.find? (fun x => x.id == a.id) = some a)
    (hdup : NoDupIds s)
    (honly : ∀ b ∈ s.appointments, b.doctor_id = a.doctor_id → b.date = a.date →
      b.time = a.time → b.status ≠ "cancelled" → b = a)
    (hpat : s.patients.find? (fun p => p.name == r.patient_name && p.dob == r.patient_dob)
      = some pt)
    (hdoc : s.doctors.find? (fun x => x.name == r.doctor_name) = some d)
    (hdid : d.id = a.doctor_id)
    (hdate : r.date = a.date) (htime : r.time = a.time) :
    ∃ s2, cancel_appointment s a.id = .ok s2 ∧
      ∃ s3 n, book_appointment s2 r = .ok (s3, n) := by
  obtain ⟨l1, l2, hsplit, hl1⟩ := find?_decomp hfind
  have hupd : updateFirst s.appointments a.id (fun x => { x with status := "cancelled" })
      = l1 ++ { a with status := "cancelled" } :: l2 := by
    rw [hsplit]
    exact updateFirst_append hl1 rfl
  refine ⟨{ s with appointments := l1 ++ { a with status := "cancelled" } :: l2 }, ?_, ?_⟩
  · unfold cancel_appointment
    rw [hfind]
    simp only []
    rw [hupd]
  · refine ⟨_, s.nextApptId, book_succeeds hpat hdoc ?_⟩
    rw [List.find?_eq_none]
    intro x hx hpred
    simp only [Bool.and_eq_true, beq_iff_eq, bne_iff_ne] at hpred
    obtain ⟨⟨⟨hxdoc, hxdate⟩, hxtime⟩, hxst⟩ := hpred
    simp only [List.mem_append, List.mem_cons] at hx
    rcases hx with hx | rfl | hx
    · have hxs : x ∈ s.appointments := by rw [hsplit]; simp [hx]
      have hxa : x = a := honly x hxs (hxdoc.trans hdid) (hxdate.trans hdate)
        (hxtime.trans htime) hxst
      subst hxa
      have := hl1 x hx
      simp at this
    · exact hxst rfl
    · have hxs : x ∈ s.appointments := by rw [hsplit]; simp [hx]
      have hxa : x = a := honly x hxs (hxdoc.trans hdid) (hxdate.trans hdate)
        (hxtime.trans htime) hxst
      subst hxa
      unfold NoDupIds at hdup
      rw [hsplit] at hdup
      rw [List.pairwise_append] at hdup
      have := (List.pairwise_cons.mp hdup.2.1).1 x hx
      exact this rfl

theorem cancel_frees_slot_witness :
    demoStore.appointments.find? (fun x => x.id == apptScheduled.id) = some apptScheduled ∧
    NoDupIds demoStore ∧
    ∃ s2, cancel_appointment demoStore apptScheduled.id = .ok s2 ∧
      ∃ s3 n, book_appointment s2 demoBookReq = .ok (s3, n) :=
  ⟨by decide, by decide,
    cancel_frees_slot demoStore apptScheduled demoBookReq
      { id := 0, name := "Asha Rao", dob := "1990-04-02", contact := "555-0100" }
      demoDoctor (by decide) (by decide) (by decide) (by decide) rfl rfl rfl rfl⟩

/-- Appointment id `n` has been handed out already and every row
carrying it is cancelled. -/
def DeadId (n : Nat) (s : Store) : Prop :=
  (∀ b ∈ s.appointments, b.id = n → b.status = "cancelled") ∧ n < s.nextApptId

theorem deadId_applyOp {n : Nat} {s : Store} (hd : DeadId n s) (op : Op) :
    DeadId n (applyOp s op) := by
  obtain ⟨hall, hlt⟩ := hd
  cases op with
  | register r =>
    simp only [applyOp]
    cases h : register_patient s r with
    | ok x =>
      obtain ⟨s2, n2⟩ := x
      obtain ⟨_, _, rfl⟩ := register_ok_inv h
      exact ⟨hall, hlt⟩
    | error e => exact ⟨hall, hlt⟩
  | search name dob => exact ⟨hall, hlt⟩
  | addDoctor d =>
    simp only [applyOp]
    cases h : add_doctor s d with
    | ok s2 =>
      unfold add_doctor at h
      cases hf : s.doctors.find? (fun x => x.id == d.id) with
      | some _ => rw [hf] at h; exact absurd h (by simp)
      | none =>
        rw [hf] at h
        simp only [Except.ok.injEq] at h
        subst h
        exact ⟨hall, hlt⟩
    | error e => exact ⟨hall, hlt⟩
  | removeDoctor i =>
    simp only [applyOp]
    cases h : remove_doctor s i with
    | ok s2 =>
      unfold remove_doctor at h
      cases hf : s.doctors.find? (fun d => d.id == i) with
      | none => rw [hf] at h; exact absurd h (by simp)
      | some _ =>
        rw [hf] at h
        simp only [Except.ok.injEq] at h
        subst h
        exact ⟨hall, hlt⟩
    | error e => exact ⟨hall, hlt⟩
  | listDocs => exact ⟨hall, hlt⟩
  | book r =>
    simp only [applyOp]
    cases h : book_appointment s r with
    | ok x =>
      obtain ⟨s2, n2⟩ := x
      obtain ⟨p, dd, _, _, _, _, rfl⟩ := book_ok_inv h
      refine ⟨?_, Nat.lt_succ_of_lt hlt⟩
      intro b hb hbid
      rcases List.mem_append.mp hb with hb | hb
      · exact hall b hb hbid
      · exfalso
        simp only [List.mem_singleton] at hb
        subst hb
        simp only [] at hbid
        omega
    | error e => exact ⟨hall, hlt⟩
  | reschedule i nd nt =>
    simp only [applyOp]
    cases h : reschedule_appointment s i nd nt with
    | ok s2 =>
      obtain ⟨a, hf, hc, rfl⟩ := reschedule_ok_inv h
      refine ⟨?_, hlt⟩
      intro b hb hbid
      rcases mem_updateFirst hb with hb | ⟨y, hy, rfl⟩
      · exact hall b hb hbid
      · exact hall y hy hbid
    | error e => exact ⟨hall, hlt⟩
  | cancel i =>
    simp only [applyOp]
    cases h : cancel_appointment s i with
    | ok s2 =>
      obtain ⟨a, hf, rfl⟩ := cancel_ok_inv h
      refine ⟨?_, hlt⟩
      intro b hb hbid
      rcases mem_updateFirst hb with hb | ⟨y, hy, rfl⟩
      · exact hall b hb hbid
      · rfl
    | error e => exact ⟨hall, hlt⟩
  | listForPatient name dob => exact ⟨hall, hlt⟩
  | listForDoctor name qd => exact ⟨hall, hlt⟩

theorem deadId_runOps {n : Nat} {s : Store} (hd : DeadId n s) (ops : List Op) :
    DeadId n (runOps s ops) := by
  induction ops generalizing s with
  | nil => exact hd
  | cons op ops ih => exact ih (deadId_applyOp hd op)

/-- C3: once an appointment of a reachable store is cancelled, no
subsequent sequence of operations ever yields a row with its id whose
status differs from `"cancelled"`. -/
theorem no_resurrection (s : Store) (h : Reachable s) (a : Appointment)
    (ha : a ∈ s.appointments) (hcanc : a.status = "cancelled") (ops : List Op)
    (b : Appointment) (hb : b ∈ (runOps s ops).appointments) (hid : b.id = a.id) :
    b.status = "cancelled" := by
  have hwf := reachable_wf h
  have hdup : s.appointments.Pairwise (fun x y => x.id ≠ y.id) := hwf.2.1
  have hdead : DeadId a.id s := by
    refine ⟨?_, hwf.1 a ha⟩
    intro x hx hxid
    by_cases hxa : x = a
    · rw [hxa]; exact hcanc
    · exact absurd hxid
        (pairwise_mem_distinct (fun u v huv => Ne.symm huv) hdup hx ha hxa)
  exact (deadId_runOps hdead ops).1 b hb hid

def opsC3 : List Op := [.reschedule 0 "2025-03-11" "10:00"]

def apptMoved : Appointment :=
  { id := 0, patient_id := 0, doctor_id := "doc1", date := "2025-03-11",
    time := "10:00", ward := none, status := "cancelled", notes := "" }

theorem no_resurrection_witness :
    Reachable demoStoreCancelled ∧
    apptCancelled ∈ demoStoreCancelled.appointments ∧
    apptCancelled.status = "cancelled" ∧
    apptMoved ∈ (runOps demoStoreCancelled opsC3).appointments ∧
    apptMoved.id = apptCancelled.id ∧
    apptMoved.status = "cancelled" :=
  ⟨⟨demoOpsCancel, rfl⟩, by decide, rfl, by decide, rfl,
    no_resurrection demoStoreCancelled ⟨demoOpsCancel, rfl⟩ apptCancelled
      (by decide) rfl opsC3 apptMoved (by decide) rfl⟩

/-- C8: a successful Reschedule changes only the date and time of the
addressed appointment; its other fields, every other appointment, the
patient and doctor tables and the id counters are untouched. -/
theorem reschedule_frame_condition (s : Store) (i : Nat) (nd nt : String) (s' : Store)
    (h : reschedule_appointment s i nd nt = .ok s') :
    s'.patients = s.patients ∧ s'.doctors = s.doctors ∧
    s'.nextPatientId = s.nextPatientId ∧ s'.nextApptId = s.nextApptId ∧
    ∃ l1 a a2 l2, s.appointments = l1 ++ a :: l2 ∧ (∀ b ∈ l1, b.id ≠ i) ∧ a.id = i ∧
      s'.appointments = l1 ++ a2 :: l2 ∧
      a2.date = nd ∧ a2.time = nt ∧
      a2.id = a.id ∧ a2.patient_id = a.patient_id ∧ a2.doctor_id = a.doctor_id ∧
      a2.status = a.status ∧ a2.notes = a.notes ∧ a2.ward = a.ward := by
  obtain ⟨a, hf, hc, rfl⟩ := reschedule_ok_inv h
  have haid : a.id = i := by simpa using List.find?_some hf
  obtain ⟨l1, l2, hsplit, hl1⟩ := find?_decomp hf
  have hupd : updateFirst s.appointments i (fun x => { x with date := nd, time := nt })
      = l1 ++ { a with date := nd, time := nt } :: l2 := by
    rw [hsplit]
    exact updateFirst_append hl1 haid
  refine ⟨rfl, rfl, rfl, rfl, l1, a, { a with date := nd, time := nt }, l2,
    hsplit, ?_, haid, hupd, rfl, rfl, rfl, rfl, rfl, rfl, rfl, rfl⟩
  intro b hb
  simpa using hl1 b hb

def demoStoreRescheduled : Store := runOps initStore (demoOps ++ opsC3)

theorem reschedule_frame_condition_witness :
    reschedule_appointment demoStore 0 "2025-03-11" "10:00" = .ok demoStoreRescheduled ∧
    (demoStoreRescheduled.patients = demoStore.patients ∧
     demoStoreRescheduled.doctors = demoStore.doctors ∧
     demoStoreRescheduled.nextPatientId = demoStore.nextPatientId ∧
     demoStoreRescheduled.nextApptId = demoStore.nextApptId ∧
     ∃ l1 a a2 l2, demoStore.appointments = l1 ++ a :: l2 ∧
       (∀ b ∈ l1, b.id ≠ 0) ∧ a.id = 0 ∧
       demoStoreRescheduled.appointments = l1 ++ a2 :: l2 ∧
       a2.date = "2025-03-11" ∧ a2.time = "10:00" ∧
       a2.id = a.id ∧ a2.patient_id = a.patient_id ∧ a2.doctor_id = a.doctor_id ∧
       a2.status = a.status ∧ a2.notes = a.notes ∧ a2.ward = a.ward) :=
  ⟨rfl, reschedule_frame_condition demoStore 0 "2025-03-11" "10:00"
    demoStoreRescheduled rfl⟩

/-- First match of a predicate in a decomposed list. -/
theorem find?_middle {α : Type} {p : α → Bool} {l1 l2 : List α} {a : α}
    (h1 : ∀ b ∈ l1, p b = false) (ha : p a = true) :
    (l1 ++ a :: l2).find? p = some a := by
  induction l1 with
  | nil => simp [List.find?_cons_of_pos _ ha]
  | cons x xs ih =>
    have hx := h1 x (by simp)
    rw [List.cons_append, List.find?_cons_of_neg _ (by simp [hx])]
    exact ih (fun b hb => h1 b (by simp [hb]))

/-- C9: a second Cancel on an already-cancelled appointment succeeds
again and leaves the store exactly as it was after the first Cancel. -/
theorem cancel_twice_same_state (s s' : Store) (i : Nat)
    (h : cancel_appointment s i = .ok s') :
    cancel_appointment s' i = .ok s' := by
  obtain ⟨a, hf, rfl⟩ := cancel_ok_inv h
  have haid : a.id = i := by simpa using List.find?_some hf
  obtain ⟨l1, l2, hsplit, hl1⟩ := find?_decomp hf
  have hupd : updateFirst s.appointments i (fun x => { x with status := "cancelled" })
      = l1 ++ { a with status := "cancelled" } :: l2 := by
    rw [hsplit]
    exact updateFirst_append hl1 haid
  unfold cancel_appointment
  rw [hupd]
  simp only []
  rw [find?_middle hl1 (by simp [haid])]
  rw [@updateFirst_append l1 { a with status := "cancelled" } l2 i _ hl1 haid]

theorem cancel_twice_same_state_witness :
    cancel_appointment demoStore 0 = .ok demoStoreCancelled ∧
    cancel_appointment demoStoreCancelled 0 = .ok demoStoreCancelled :=
  ⟨rfl, cancel_twice_same_state demoStore demoStoreCancelled 0 rfl⟩

/-- C10: Reschedule imposes no status precondition: an existing
cancelled appointment is rescheduled successfully to a slot holding no
other active appointment, its date and time change and its status
remains `"cancelled"`. -/
theorem reschedule_no_status_precondition (s : Store) (a : Appointment) (nd nt : String)
    (hfind : s.appointments.find? (fun x => x.id == a.id) = some a)
    (hcanc : a.status = "cancelled")
    (hfree : ∀ b ∈ s.appointments, b.doctor_id = a.doctor_id → b.date = nd →
      b.time = nt → b.id ≠ a.id → b.status = "cancelled") :
    ∃ s', reschedule_appointment s a.id nd nt = .ok s' ∧
      ∃ l1 l2, s.appointments = l1 ++ a :: l2 ∧
        s'.appointments = l1 ++ { a with date := nd, time := nt } :: l2 ∧
        ({ a with date := nd, time := nt }).status = "cancelled" := by
  obtain ⟨l1, l2, hsplit, hl1⟩ := find?_decomp hfind
  have hconf : s.appointments.find? (fun x =>
      x.doctor_id == a.doctor_id && x.date == nd && x.time == nt &&
      x.id != a.id && x.status != "cancelled") = none := by
    rw [List.find?_eq_none]
    intro x hx hpred
    simp only [Bool.and_eq_true, beq_iff_eq, bne_iff_ne] at hpred
    obtain ⟨⟨⟨⟨hdoc, hdate⟩, htime⟩, hid⟩, hst⟩ := hpred
    exact hst (hfree x hx hdoc hdate htime hid)
  have hres : reschedule_appointment s a.id nd nt =
      .ok { s with
              appointments := updateFirst s.appointments a.id
                (fun x => { x with date := nd, time := nt }) } := by
    unfold reschedule_appointment
    rw [hfind]
    simp only []
    rw [hconf]
  refine ⟨_, hres, l1, l2, hsplit, ?_, hcanc⟩
  show updateFirst s.appointments a.id (fun x => { x with date := nd, time := nt }) = _
  rw [hsplit]
  exact updateFirst_append hl1 rfl

theorem reschedule_no_status_precondition_witness :
    demoStoreCancelled.appointments.find? (fun x => x.id == apptCancelled.id)
      = some apptCancelled ∧
    apptCancelled.status = "cancelled" ∧
    ∃ s', reschedule_appointment demoStoreCancelled apptCancelled.id "2025-03-11" "10:00"
        = .ok s' ∧
      ∃ l1 l2, demoStoreCancelled.appointments = l1 ++ apptCancelled :: l2 ∧
        s'.appointments =
          l1 ++ { apptCancelled with date := "2025-03-11", time := "10:00" } :: l2 ∧
        ({ apptCancelled with date := "2025-03-11", time := "10:00" }).status
          = "cancelled" :=
  ⟨by decide, rfl,
    reschedule_no_status_precondition demoStoreCancelled apptCancelled
      "2025-03-11" "10:00" (by decide) rfl (by decide)⟩

end Schedula
